import Mathlib

/-!
Verification development for the single-agent LLM orchestrator
(`llm.py`, `main.py`, `models/request_models.py`, `prompts/*.py`).

The Python code is shallowly embedded: parsed JSON values (the results of
`json.loads`) are modelled by the inductive type `Json`; Python dicts that
carry JSON data are association lists in insertion order; the generation
provider (`LLMClient.generate` / `LLMClient.generate_and_stream`) is an
oracle parameter, since its behaviour is external network I/O; `json.loads`
itself is a standard-library collaborator and is likewise a parameter
(`loads : String → Option Json`, `none` meaning the parse raised).
Raised exceptions are `Except.error` with the exception's `str(e)` text.
-/

namespace LLMAgent

/-- Model of a parsed JSON value (the result of `json.loads`), also used for
the Python values that flow through plans and tool results.  Numbers are
modelled as integers; no claim involves fractional numerics. -/
inductive Json where
  | null
  | bool (b : Bool)
  | num (n : Int)
  | str (s : String)
  | arr (xs : List Json)
  | obj (fields : List (String × Json))

/-- Lookup in a Python dict modelled as an association list (first match;
dicts produced by `json.loads` have unique keys). -/
def dlookup {α : Type} : List (String × α) → String → Option α
  | [], _ => none
  | (k, v) :: rest, key => if k = key then some v else dlookup rest key

/-- Python dict assignment `d[k] = v`: replaces the value in place when the
key is present (keeping its position, as CPython dicts do), otherwise
appends the new entry at the end. -/
def dinsert {α : Type} : List (String × α) → String → α → List (String × α)
  | [], k, v => [(k, v)]
  | (k0, v0) :: rest, k, v =>
    if k0 = k then (k0, v) :: rest else (k0, v0) :: dinsert rest k v

/-- Python truthiness of a JSON-shaped value: `None`, `False`, `0`, `""`,
`[]` and `\x7b\x7d` are falsy, everything else truthy. -/
def pyTruthy : Json → Bool
  | .null => false
  | .bool b => b
  | .num n => n != 0
  | .str s => !s.isEmpty
  | .arr xs => !xs.isEmpty
  | .obj fs => !fs.isEmpty

/-- Lower-case hexadecimal digit. -/
def hexDigitChar (n : Nat) : Char :=
  if n < 10 then Char.ofNat (48 + n) else Char.ofNat (97 + (n - 10))

/-- Four-digit lower-case hex rendering used by JSON `\uXXXX` escapes. -/
def hex4 (n : Nat) : String :=
  String.mk [hexDigitChar (n / 4096 % 16), hexDigitChar (n / 256 % 16),
             hexDigitChar (n / 16 % 16), hexDigitChar (n % 16)]

/-- Escaping of one character inside a JSON string literal, following
`json.dumps` with its default `ensure_ascii=True`: printable ASCII is kept,
control and non-ASCII characters are `\u`-escaped (astral characters as a
surrogate pair). -/
def escapeChar (c : Char) : String :=
  if c = '"' then "\\\""
  else if c = '\\' then "\\\\"
  else if c = '\n' then "\\n"
  else if c = '\t' then "\\t"
  else if c = '\r' then "\\r"
  else if c = Char.ofNat 8 then "\\b"
  else if c = Char.ofNat 12 then "\\f"
  else if c.toNat < 32 then "\\u" ++ hex4 c.toNat
  else if c.toNat < 128 then String.mk [c]
  else if c.toNat < 65536 then "\\u" ++ hex4 c.toNat
  else
    let v := c.toNat - 65536
    "\\u" ++ hex4 (55296 + v / 1024) ++ "\\u" ++ hex4 (56320 + v % 1024)

/-- Body of a JSON string literal under `json.dumps` escaping. -/
def jsonEscape (s : String) : String :=
  String.join (s.toList.map escapeChar)

/-- Indentation produced by `json.dumps(..., indent=2)` at nesting depth
`d`. -/
def indentStr (d : Nat) : String :=
  String.mk (List.replicate (2 * d) ' ')

mutual

/-- Embedding of `json.dumps(value, indent=2)` at nesting depth `d`:
empty containers print inline, non-empty ones one element per line with
two-space indentation and `": "` between key and value, as CPython does. -/
def dumpsAt : Nat → Json → String
  | _, Json.null => "null"
  | _, Json.bool true => "true"
  | _, Json.bool false => "false"
  | _, Json.num n => toString n
  | _, Json.str s => "\"" ++ jsonEscape s ++ "\""
  | _, Json.arr [] => "[]"
  | d, Json.arr (x :: xs) =>
    "[\n" ++ dumpsArr (d + 1) x xs ++ "\n" ++ indentStr d ++ "]"
  | _, Json.obj [] => "\x7b\x7d"
  | d, Json.obj (f :: fs) =>
    "\x7b\n" ++ dumpsObj (d + 1) f fs ++ "\n" ++ indentStr d ++ "\x7d"
termination_by d j => sizeOf j
decreasing_by all_goals (simp_wf <;> omega)

/-- Comma-and-newline separated array elements of `dumpsAt`. -/
def dumpsArr : Nat → Json → List Json → String
  | d, x, [] => indentStr d ++ dumpsAt d x
  | d, x, y :: ys => indentStr d ++ dumpsAt d x ++ ",\n" ++ dumpsArr d y ys
termination_by d x xs => sizeOf x + sizeOf xs
decreasing_by all_goals (simp_wf <;> omega)

/-- Comma-and-newline separated object fields of `dumpsAt`. -/
def dumpsObj : Nat → (String × Json) → List (String × Json) → String
  | d, (k, v), [] => indentStr d ++ "\"" ++ jsonEscape k ++ "\": " ++ dumpsAt d v
  | d, (k, v), g :: gs =>
    indentStr d ++ "\"" ++ jsonEscape k ++ "\": " ++ dumpsAt d v ++ ",\n" ++
      dumpsObj d g gs
termination_by d f fs => sizeOf f + sizeOf fs
decreasing_by all_goals (simp_wf <;> omega)

end

/-- Embedding of `json.dumps(value, indent=2)` as used by
`Agent.synthesize_response` and `Agent.respond_streaming`. -/
def dumps (j : Json) : String := dumpsAt 0 j

/-- Model of a registered tool (`tools/__init__.py` abstract `Tool`): a name,
a human-readable description, and `execute(**kwargs)`, which receives the
keyword-argument mapping and either returns a value or raises
(`Except.error` carries `str(e)`).  The concrete tools perform network I/O,
so `execute` is the tool's behaviour as an opaque function. -/
structure Tool where
  name : String
  description : String
  execute : List (String × Json) → Except String Json

/-- Embedding of `prompts/base_prompts.py::get_agent_system_prompt`
(apostrophes and braces of the source text are written with `\x27`,
`\x7b`, `\x7d` escapes). -/
def get_agent_system_prompt (tools : List Tool) : String :=
  let tool_descriptions :=
    String.intercalate "\n" (tools.map (fun t => "- " ++ t.name ++ ": " ++ t.description))
  "You are an intelligent assistant capable of calling external tools to perform tasks.\nWhen given a user\x27s query, analyze whether to use a tool or respond directly.\nIf using a tool, produce a JSON object with:\n  \x7b\n    \x27tool\x27: \x27<tool_name>\x27,  # or null if no tool is needed\n    \x27args\x27: \x7b<arguments_for_the_tool>\x7d\n  \x7d\n\nAvailable tools:\n" ++ tool_descriptions ++ "\n"

/-- Embedding of `prompts/tool_prompts.py::get_tool_decision_prompt`.
The `system_prompt` parameter defaults to `None` in Python and is prepended
with a blank line when truthy; `none` and the empty string are both falsy. -/
def get_tool_decision_prompt (user_input : String) (system_prompt : Option String) : String :=
  let system_part :=
    match system_prompt with
    | none => ""
    | some s => if s.isEmpty then "" else s ++ "\n\n"
  system_part ++ "Decide which tool (if any) should be used for the user\x27s request. You can get creative.\n\nYou can call all the registered tools. any one of them, or none.\n\nYou can breakdown the pormpt into multiple parts and call multiple tools for each part if needed.\n\nReturn only a JSON object in this exact format:  \x7b\"plans\": [\x7b\"tool\": \"ToolName\", \"args\": \x7b...\x7d\x7d, ...]\x7d.\n\nNo reasoning, just the JSON.\n\nUser input: \"" ++ user_input ++ "\"\n"

/-- Embedding of `prompts/response_prompts.py::get_response_prompt` (the
unused `memory` parameter defaults to `None` and never influences the
result, so it is omitted). -/
def get_response_prompt (user_input : String) (tool_output : String) : String :=
  "You are a helpful financial and web search assistant. The user asked: \"" ++ user_input ++ "\"\n\nHere is the data retrieved from tools:\n" ++ tool_output ++ "\n\nIMPORTANT INSTRUCTIONS:\n1. Extract the specific numerical values, prices, dates, and key information from the tool output\n2. Present the information in a clear, human-readable format\n3. For stock data, include: current price, change amount, change percentage, and trading date\n4. For search results, summarize the key findings from the search results\n5. Use the actual values from the data - do not leave placeholders like \x27$.\x27 or \x27October ,\x27\n6. Be specific and accurate with numbers, dates, and percentages\n7. If there are errors in the tool output, mention them clearly\n8. Use the conversation history to provide context-aware responses and maintain continuity\n\nProvide a helpful and informative response using the actual data from the tools:If there is no result from the tools answer the user\x27s question based on your knowledge and you should not tell that the tool output is empty. the user does not need to know that the tool output is empty."

/-- Planning temperature: `LLMClient.generate` is called with its default
`temperature=0.7` by `Agent.evaluate_prompt`. -/
def planTemp : Rat := 0.7

/-- Synthesis temperature: both synthesis calls pass `temperature=0.3`. -/
def synthTemp : Rat := 0.3

/-- Behaviour of `LLMClient.generate` (an upstream network call): given the
prompt and sampling temperature it returns the completion text or raises a
provider error. -/
def GenOracle : Type := String → Rat → Except String String

/-- Behaviour of one use of `LLMClient.generate_and_stream` inside
`Agent.respond_streaming`: the fragments the provider delivers before the
iteration either finishes (`none`) or raises mid-stream (`some message`). -/
def StreamOracle : Type := String → Rat → List String × Option String

/-- The sentinel plan `[\x7b"tool": None, "args": \x7b\x7d\x7d]` returned by
`Agent.evaluate_prompt` when parsing fails. -/
def sentinelPlan : Json :=
  Json.obj [("tool", Json.null), ("args", Json.obj [])]

/-- The body of the `try` block of `Agent.evaluate_prompt` after
`json.loads` succeeded: a dict containing the key `"plans"` returns that
value, any other dict is wrapped as a one-element list, and any non-dict
raises `ValueError("Invalid plan structure")`. -/
def evaluatePlanBody : Json → Except String Json
  | Json.obj fs =>
    match dlookup fs "plans" with
    | some v => Except.ok v
    | none => Except.ok (Json.arr [Json.obj fs])
  | _ => Except.error "Invalid plan structure"

/-- Parsing part of `Agent.evaluate_prompt`: `json.loads` already applied
(`none` = the parse raised); any exception inside the `try` yields the
sentinel plan list.  This function is total: this branch of the code never
propagates an exception. -/
def planParse : Option Json → Json
  | none => Json.arr [sentinelPlan]
  | some j =>
    match evaluatePlanBody j with
    | Except.ok v => v
    | Except.error _ => Json.arr [sentinelPlan]

/-- One entry of the plan list as consumed by the execution loops of
`Agent.respond` and `Agent.respond_streaming` (the spec's Plan value):
`tool` is the plan dict's `"tool"` entry (`none` for null or missing) and
`args` its `"args"` entry (`\x7b\x7d` when missing, as `plan.get("args", \x7b\x7d)`
defaults). -/
structure Plan where
  tool : Option String
  args : Json

/-- Reading one element of the plan list the way the loops do.  Non-dict
elements make `plan.get` raise and are rejected (`none`).  A falsy non-null
`"tool"` value is skipped by `if not tool_name` exactly like null, so it
maps to `tool := none`; a truthy non-string `"tool"` value (the code would
look it up in the registry, fail, and record the error under a non-string
key) is outside the string-keyed results model and is rejected as well —
no claim depends on that corner. -/
def planOfJson : Json → Option Plan
  | Json.obj fs =>
    let a := (dlookup fs "args").getD (Json.obj [])
    match (dlookup fs "tool").getD Json.null with
    | Json.str s => some ⟨some s, a⟩
    | t => if pyTruthy t then none else some ⟨none, a⟩
  | _ => none

/-- Iterating `for plan in plans` over the value `Agent.evaluate_prompt`
returned: a list iterates its elements; an empty dict or empty string
iterates nothing; any other value makes the loop (or the field access on
its elements) raise, modelled as `none`. -/
def toPlans : Json → Option (List Plan)
  | Json.arr xs => xs.mapM planOfJson
  | Json.obj [] => some []
  | Json.str "" => some []
  | _ => none

/-- Message of the `ValueError` raised by `Agent.call_tool` for an
unregistered tool name. -/
def notRegisteredMsg (n : String) : String :=
  "Tool \x27" ++ n ++ "\x27 not registered."

/-- Message of the `TypeError` raised at the `call_tool(tool_name, **args)`
call site when the normalized args value is not a mapping (text approximates
the CPython message; no claim depends on its wording). -/
def kwargsMsg (a : Json) : String :=
  "Agent.call_tool() argument after ** must be a mapping, not " ++
    (match a with
     | Json.null => "NoneType"
     | Json.bool _ => "bool"
     | Json.num _ => "int"
     | Json.str _ => "str"
     | Json.arr _ => "list"
     | Json.obj _ => "dict")

/-- The registry built once in `Agent.__init__`:
`self.tools = \x7bt.name: t for t in tools\x7d` (a later tool with the same name
overwrites an earlier one). -/
def buildRegistry (tools : List Tool) : List (String × Tool) :=
  List.foldl (fun m t => dinsert m t.name t) [] tools

/-- Embedding of `Agent.call_tool` applied to already-unpacked kwargs:
raises `ValueError` when the name is not registered, otherwise delegates to
the tool's `execute` (whose own failures it never catches). -/
def call_tool (tools : List Tool) (n : String) (kw : List (String × Json)) :
    Except String Json :=
  match dlookup (buildRegistry tools) n with
  | none => Except.error (notRegisteredMsg n)
  | some t => t.execute kw

/-- The expression `self.call_tool(tool_name, **args)` as it appears inside
the `try` of both loops: the `**` unpacking itself raises when `args` is
not a mapping; that exception is caught by the same handler. -/
def callToolKw (tools : List Tool) (n : String) (args : Json) :
    Except String Json :=
  match args with
  | Json.obj kw => call_tool tools n kw
  | a => Except.error (kwargsMsg a)

/-- The `\x7b"error": str(e)\x7d` record written into the results map when a
tool call raises. -/
def errEntry (m : String) : Json :=
  Json.obj [("error", Json.str m)]

/-- Normalization `args = plan.get("args", \x7b\x7d) or \x7b\x7d` performed by both
loops before calling the tool. -/
def normArgs (a : Json) : Json :=
  if pyTruthy a then a else Json.obj []

/-- Value stored in `tool_results[tool_name]` by the shared
`try`/`except` around `call_tool` in both loops: the tool's return value on
success, the error record on any exception. -/
def execResult (tools : List Tool) (n : String) (args : Json) : Json :=
  match callToolKw tools n args with
  | Except.ok v => v
  | Except.error m => errEntry m

/-- One iteration of the tool-execution loop of `Agent.respond`.  The state
is `(calls, tool_results)` where `tool_results` is the Python dict and
`calls` records each `call_tool` invocation `(name, kwargs)` in program
order (the loop's observable side effects). -/
def respondStep (tools : List Tool)
    (s : List (String × Json) × List (String × Json)) (p : Plan) :
    List (String × Json) × List (String × Json) :=
  match p.tool with
  | none => s
  | some n =>
    if n.isEmpty then s
    else
      let args := normArgs p.args
      (s.1 ++ [(n, args)], dinsert s.2 n (execResult tools n args))

/-- The whole tool-execution loop of `Agent.respond`, starting from
`tool_results = \x7b\x7d` and an empty call record. -/
def respondLoop (tools : List Tool) (plans : List Plan) :
    List (String × Json) × List (String × Json) :=
  List.foldl (respondStep tools) ([], []) plans

/-- The marker substituted by `Agent.synthesize_response` when
`tool_results` is falsy (empty). -/
def noResultsMarker : String := "No tool results available."

/-- The prompt built by `Agent.synthesize_response`. -/
def synthesisPrompt (user_input : String) (tool_results : List (String × Json)) : String :=
  get_response_prompt user_input
    (if tool_results.isEmpty then noResultsMarker else dumps (Json.obj tool_results))

/-- The decision prompt built by `Agent.evaluate_prompt` out of the system
prompt and the user input. -/
def decisionPromptOf (tools : List Tool) (user_input : String) : String :=
  get_tool_decision_prompt user_input (some (get_agent_system_prompt tools))

/-- One record of an upstream provider call made during a request: the
prompt, the sampling temperature, and whether the streaming entry point was
used. -/
structure GenCall where
  prompt : String
  temp : Rat
  streamed : Bool

/-- Message of the dynamic `TypeError`/`AttributeError` raised when the
value returned by `Agent.evaluate_prompt` cannot be iterated as a list of
plan dicts (see `toPlans`; text is a stand-in, no claim depends on it). -/
def planShapeErrMsg : String := "plans value is not iterable as plan dicts"

/-- Embedding of `Agent.respond`: plans the tools (the planning `generate`
call sits outside the `try` of `evaluate_prompt`, so a provider failure
there propagates), runs the tool loop, always synthesizes once afterwards,
and returns the Python dict
`\x7b"final_response": ..., "tool_plans": ..., "tool_results": ...\x7d`.
The first component records every provider call made (in order); the second
is the returned dict, or the propagated exception. -/
def respondWithLog (gen : GenOracle) (loads : String → Option Json)
    (tools : List Tool) (user_input : String) :
    List GenCall × Except String Json :=
  let dp := decisionPromptOf tools user_input
  match gen dp planTemp with
  | Except.error m => ([⟨dp, planTemp, false⟩], Except.error m)
  | Except.ok llm_output =>
    let plansJson := planParse (loads llm_output)
    match toPlans plansJson with
    | none => ([⟨dp, planTemp, false⟩], Except.error planShapeErrMsg)
    | some plans =>
      let st := respondLoop tools plans
      let fp := synthesisPrompt user_input st.2
      ([⟨dp, planTemp, false⟩, ⟨fp, synthTemp, false⟩],
       match gen fp synthTemp with
       | Except.error m => Except.error m
       | Except.ok final_generated =>
         Except.ok (Json.obj
           [("final_response", Json.str final_generated),
            ("tool_plans", plansJson),
            ("tool_results", Json.obj st.2)]))

/-- The value of `Agent.respond`, or the exception it propagates. -/
def respond (gen : GenOracle) (loads : String → Option Json)
    (tools : List Tool) (user_input : String) : Except String Json :=
  (respondWithLog gen loads tools user_input).2

/-- Model of `models/request_models.py::AgentResponse` (pydantic fields;
`tool_plan` and `tool_results` default to `None`). -/
structure AgentResponseM where
  original_prompt : String
  final_response : String
  tool_plan : Option Json
  tool_results : Option Json

/-- Embedding of `main.py::query_endpoint`: calls `agent.respond` and builds
the `AgentResponse`; any exception becomes an HTTP 500 whose detail is
`str(e)` (`Except.error`).  Note the endpoint reads `response["final_response"]`,
`response.get("tool_plan")` and `response.get("tool_results")` from the dict
`respond` returned. -/
def query_endpoint (gen : GenOracle) (loads : String → Option Json)
    (tools : List Tool) (prompt : String) : Except String AgentResponseM :=
  match respond gen loads tools prompt with
  | Except.error e => Except.error e
  | Except.ok d =>
    let fields := match d with | Json.obj fs => fs | _ => []
    Except.ok
      { original_prompt := prompt
        final_response :=
          match dlookup fields "final_response" with
          | some (Json.str s) => s
          | _ => ""
        tool_plan := dlookup fields "tool_plan"
        tool_results := dlookup fields "tool_results" }

/-- Events sent over the WebSocket by `Agent.respond_streaming` and
`Agent._stream_llm_tokens`.  The fixed human-readable `"message"` strings
accompanying `thinking`, `tool_calling` and `stream_start` carry no claim
content and are not repeated here; `chunk` is the raw `send_text` of one
flushed buffer. -/
inductive Event where
  | thinking
  | plan (data : Json)
  | toolCalling (tool : String) (args : Json)
  | toolResult (tool : String) (result : Json)
  | toolErr (tool : String) (error : String)
  | streamStart
  | chunk (text : String)
  | done
  | err (message : String)

/-- One iteration of the tool-execution loop of `Agent.respond_streaming`:
state is `(events sent so far, tool_results)`.  A named plan sends
`tool_calling`, executes, then sends exactly one of `tool_result` or
`tool_error` and records the result or the error entry. -/
def streamToolStep (tools : List Tool)
    (s : List Event × List (String × Json)) (p : Plan) :
    List Event × List (String × Json) :=
  match p.tool with
  | none => s
  | some n =>
    if n.isEmpty then s
    else
      let args := normArgs p.args
      match callToolKw tools n args with
      | Except.ok v =>
        (s.1 ++ [Event.toolCalling n args, Event.toolResult n v], dinsert s.2 n v)
      | Except.error m =>
        (s.1 ++ [Event.toolCalling n args, Event.toolErr n m],
         dinsert s.2 n (errEntry m))

/-- The characters `[' ', '\n', '.', ',', ':', ';', '!', '?', '\t']` that
`_stream_llm_tokens` treats as natural breakpoints. -/
def breakpointChars : List Char :=
  [' ', '\n', '.', ',', ':', ';', '!', '?', '\t']

/-- The flush decision of `_stream_llm_tokens` evaluated after appending a
fragment: buffer reached `buffer_size = 20`, or the 50ms interval elapsed
(the clock is abstracted into the boolean `timeFired`), or the buffer is
non-empty and ends at a natural breakpoint. -/
def shouldFlush (buf : String) (timeFired : Bool) : Bool :=
  decide (buf.length ≥ 20) || timeFired ||
    (!buf.isEmpty && breakpointChars.contains buf.back)

/-- The fragment-consuming loop of `_stream_llm_tokens`: empty fragments are
skipped (`if not chunk: continue`); otherwise the fragment is appended and
the buffer flushed when `shouldFlush` holds.  `tl` is the oracle of
time-trigger outcomes, one per processed fragment.  Returns the flushed
chunks in emission order and the final buffer contents. -/
def streamRun : List Bool → String → List String → List String × String
  | _, buf, [] => ([], buf)
  | tl, buf, c :: rest =>
    if c.isEmpty then streamRun tl buf rest
    else
      let buf2 := buf ++ c
      if shouldFlush buf2 (tl.headD false) then
        let r := streamRun tl.tail "" rest
        (buf2 :: r.1, r.2)
      else streamRun tl.tail buf2 rest

/-- All chunks `_stream_llm_tokens` yields (and sends): the in-loop flushes
plus the final unconditional flush of any remaining buffered text. -/
def streamFlushAll (tl : List Bool) (frags : List String) : List String :=
  let r := streamRun tl "" frags
  r.1 ++ (if r.2.isEmpty then [] else [r.2])

/-- Embedding of `Agent.respond_streaming`: the events sent over the
channel and the provider calls made.  The surrounding `try` turns any
uncaught failure (a planning provider error, a malformed plan value, or a
mid-stream provider error) into a single final `error` event; chunks
flushed before a mid-stream failure stay sent, and the trailing buffer of a
failed stream is lost. -/
def respondStreamingRun (gen : GenOracle) (sgen : StreamOracle)
    (loads : String → Option Json) (tools : List Tool) (user_input : String)
    (tl : List Bool) : List Event × List GenCall :=
  let dp := decisionPromptOf tools user_input
  match gen dp planTemp with
  | Except.error m => ([Event.thinking, Event.err m], [⟨dp, planTemp, false⟩])
  | Except.ok llm_output =>
    let plansJson := planParse (loads llm_output)
    match toPlans plansJson with
    | none =>
      ([Event.thinking, Event.plan plansJson, Event.err planShapeErrMsg],
       [⟨dp, planTemp, false⟩])
    | some plans =>
      let st := List.foldl (streamToolStep tools) ([], []) plans
      let fp := get_response_prompt user_input (dumps (Json.obj st.2))
      let sr := sgen fp synthTemp
      ((match sr.2 with
        | some m =>
          Event.thinking :: Event.plan plansJson ::
            (st.1 ++ Event.streamStart ::
              ((streamRun tl "" sr.1).1.map Event.chunk ++ [Event.err m]))
        | none =>
          Event.thinking :: Event.plan plansJson ::
            (st.1 ++ Event.streamStart ::
              ((streamFlushAll tl sr.1).map Event.chunk ++ [Event.done]))),
       [⟨dp, planTemp, false⟩, ⟨fp, synthTemp, true⟩])

/-- Embedding of `LLMClient.generate_and_stream`: for every chunk the
provider delivers it yields `chunk.choices[0].delta.content or ""` — the
delta content when truthy, the empty string when the content is null or
empty. -/
def generate_and_stream (chunks : List (Option String)) : List String :=
  chunks.map (fun c =>
    match c with
    | none => ""
    | some s => if s.isEmpty then "" else s)

/-! ### Dictionary lemmas -/

theorem dlookup_dinsert_self {α : Type} (l : List (String × α)) (k : String) (v : α) :
    dlookup (dinsert l k v) k = some v := by
  induction l with
  | nil => simp [dinsert, dlookup]
  | cons hd tl ih =>
    obtain ⟨k0, v0⟩ := hd
    by_cases h : k0 = k
    · simp [dinsert, dlookup, h]
    · simp [dinsert, dlookup, h, ih]

theorem dlookup_dinsert_ne {α : Type} (l : List (String × α)) (k n : String) (v : α)
    (h : k ≠ n) : dlookup (dinsert l k v) n = dlookup l n := by
  induction l with
  | nil => simp [dinsert, dlookup, h]
  | cons hd tl ih =>
    obtain ⟨k0, v0⟩ := hd
    by_cases h0 : k0 = k
    · subst h0
      simp [dinsert, dlookup, h]
    · simp only [dinsert, if_neg h0, dlookup]
      by_cases h1 : k0 = n <;> simp [h1, ih]

theorem dinsert_cons_pos {α : Type} (tl : List (String × α)) (k0 : String) (v0 v : α) :
    dinsert ((k0, v0) :: tl) k0 v = (k0, v) :: tl := by
  simp [dinsert]

theorem dinsert_cons_neg {α : Type} (tl : List (String × α)) (k0 k : String) (v0 v : α)
    (h : k0 ≠ k) : dinsert ((k0, v0) :: tl) k v = (k0, v0) :: dinsert tl k v := by
  simp [dinsert, h]

theorem mem_keys_dinsert {α : Type} (l : List (String × α)) (k n : String) (v : α) :
    n ∈ (dinsert l k v).map Prod.fst ↔ n = k ∨ n ∈ l.map Prod.fst := by
  induction l with
  | nil => simp [dinsert, eq_comm]
  | cons hd tl ih =>
    obtain ⟨k0, v0⟩ := hd
    by_cases h : k0 = k
    · subst h
      rw [dinsert_cons_pos]
      simp
    · rw [dinsert_cons_neg _ _ _ _ _ h]
      simp only [List.map_cons, List.mem_cons, ih]
      tauto

theorem nodup_keys_dinsert {α : Type} (l : List (String × α)) (k : String) (v : α)
    (h : (l.map Prod.fst).Nodup) : ((dinsert l k v).map Prod.fst).Nodup := by
  induction l with
  | nil => simp [dinsert]
  | cons hd tl ih =>
    obtain ⟨k0, v0⟩ := hd
    simp only [List.map_cons, List.nodup_cons] at h
    by_cases h0 : k0 = k
    · subst h0
      simpa [dinsert] using h
    · simp only [dinsert, if_neg h0, List.map_cons, List.nodup_cons]
      refine ⟨?_, ih h.2⟩
      rw [mem_keys_dinsert]
      rintro (rfl | hm)
      · exact h0 rfl
      · exact h.1 hm

/-! ### Characterization of the respond tool loop -/

/-- The tool invocation a plan gives rise to, if any: plans with a null,
missing or empty tool name are skipped, others call their tool with the
normalized args. -/
def pick (p : Plan) : Option (String × Json) :=
  match p.tool with
  | none => none
  | some n => if n.isEmpty then none else some (n, normArgs p.args)

/-- Folding one recorded call into the results dict, as the loop body does. -/
def insCall (tools : List Tool) (acc : List (String × Json)) (c : String × Json) :
    List (String × Json) :=
  dinsert acc c.1 (execResult tools c.1 c.2)

theorem respond_foldl_eq (tools : List Tool) (plans : List Plan) :
    ∀ cs rs, List.foldl (respondStep tools) (cs, rs) plans
      = (cs ++ plans.filterMap pick,
         List.foldl (insCall tools) rs (plans.filterMap pick)) := by
  induction plans with
  | nil => intro cs rs; simp
  | cons p rest ih =>
    intro cs rs
    match hp : p.tool with
    | none =>
      simp only [List.foldl_cons, respondStep, hp, List.filterMap_cons, pick]
      exact ih cs rs
    | some n =>
      by_cases hn : n.isEmpty
      · simp only [List.foldl_cons, respondStep, hp, if_pos hn,
                   List.filterMap_cons, pick, hn, ite_true]
        exact ih cs rs
      · simp only [List.foldl_cons, respondStep, hp, if_neg hn,
                   List.filterMap_cons, pick, hn, ite_false]
        rw [ih]
        simp [insCall, List.append_assoc]

theorem dlookup_foldl_insCall (tools : List Tool) (calls : List (String × Json)) :
    ∀ acc n, dlookup (List.foldl (insCall tools) acc calls) n
      = ((calls.reverse.find? (fun c => c.1 == n)).map
          (fun c => execResult tools c.1 c.2)).or (dlookup acc n) := by
  induction calls with
  | nil => intro acc n; simp
  | cons c rest ih =>
    intro acc n
    simp only [List.foldl_cons, List.reverse_cons, List.find?_append]
    rw [ih]
    rcases hr : rest.reverse.find? (fun c => c.1 == n) with _ | x
    · simp only [hr, Option.map_none', Option.none_or]
      by_cases hc : c.1 = n
      · have hb : (c.1 == n) = true := by simpa using hc
        have hfind : List.find? (fun x => x.1 == n) [c] = some c := by
          simp [List.find?, hb]
        rw [hfind, Option.map_some']
        show _ = some _
        rw [insCall, ← hc, dlookup_dinsert_self]
      · have hb : (c.1 == n) = false := by simpa using hc
        have hfind : List.find? (fun x => x.1 == n) [c] = none := by
          simp [List.find?, hb]
        rw [hfind, Option.map_none', Option.none_or, insCall,
            dlookup_dinsert_ne _ _ _ _ hc]
    · simp only [hr, Option.map_some']
      rfl

theorem mem_keys_foldl_insCall (tools : List Tool) (calls : List (String × Json)) :
    ∀ acc n, n ∈ (List.foldl (insCall tools) acc calls).map Prod.fst
      ↔ n ∈ acc.map Prod.fst ∨ n ∈ calls.map Prod.fst := by
  induction calls with
  | nil => intro acc n; simp
  | cons c rest ih =>
    intro acc n
    simp only [List.foldl_cons, ih, insCall, mem_keys_dinsert, List.map_cons,
               List.mem_cons]
    tauto

theorem nodup_keys_foldl_insCall (tools : List Tool) (calls : List (String × Json)) :
    ∀ acc, (acc.map Prod.fst).Nodup
      → ((List.foldl (insCall tools) acc calls).map Prod.fst).Nodup := by
  induction calls with
  | nil => intro acc h; simpa using h
  | cons c rest ih =>
    intro acc h
    exact ih _ (nodup_keys_dinsert _ _ _ h)

/-! ### Streaming buffer lemmas -/

/-- Concatenation of a sequence of text fragments (the reconstruction
relation of the streaming-buffer claims). -/
def concatAll : List String → String
  | [] => ""
  | s :: rest => s ++ concatAll rest

theorem concatAll_append (l1 l2 : List String) :
    concatAll (l1 ++ l2) = concatAll l1 ++ concatAll l2 := by
  induction l1 with
  | nil => simp [concatAll, String.empty_append]
  | cons s rest ih => simp [concatAll, ih, String.append_assoc]

theorem streamRun_concat (frags : List String) :
    ∀ tl buf, concatAll (streamRun tl buf frags).1 ++ (streamRun tl buf frags).2
      = buf ++ concatAll frags := by
  induction frags with
  | nil => intro tl buf; simp [streamRun, concatAll, String.empty_append]
  | cons c rest ih =>
    intro tl buf
    by_cases hc : c.isEmpty
    · have hc' : c = "" := (String.isEmpty_iff c).mp hc
      subst hc'
      calc concatAll (streamRun tl buf ("" :: rest)).1 ++ (streamRun tl buf ("" :: rest)).2
          = concatAll (streamRun tl buf rest).1 ++ (streamRun tl buf rest).2 := rfl
        _ = buf ++ concatAll rest := ih tl buf
        _ = buf ++ concatAll ("" :: rest) := by
            rw [concatAll, String.empty_append]
    · simp only [streamRun, if_neg hc]
      by_cases hf : shouldFlush (buf ++ c) (tl.headD false)
      · simp only [if_pos hf, concatAll]
        rw [String.append_assoc, ih, String.empty_append, String.append_assoc]
      · simp only [if_neg hf]
        rw [ih, String.append_assoc, concatAll]

theorem append_ne_empty_right (a b : String) (h : b ≠ "") : a ++ b ≠ "" := by
  intro hab
  apply h
  have hlen := congrArg String.length hab
  rw [String.length_append, show ("" : String).length = 0 from rfl] at hlen
  have hb : b.length = 0 := by omega
  cases b with
  | mk l =>
    cases l with
    | nil => rfl
    | cons ch cs => simp [String.length] at hb

/-! ### Streaming event-sequence lemmas -/

theorem streamToolStep_decomp (tools : List Tool) (plans : List Plan) :
    ∀ evs r, List.foldl (streamToolStep tools) (evs, r) plans
      = (evs ++ (List.foldl (streamToolStep tools) ([], r) plans).1,
         (List.foldl (streamToolStep tools) ([], r) plans).2) := by
  induction plans with
  | nil => intro evs r; simp
  | cons p rest ih =>
    intro evs r
    match hp : p.tool with
    | none =>
      simp only [List.foldl_cons, streamToolStep, hp]
      exact ih evs r
    | some n =>
      by_cases hn : n.isEmpty
      · simp only [List.foldl_cons, streamToolStep, hp, if_pos hn]
        exact ih evs r
      · rcases hcall : callToolKw tools n (normArgs p.args) with m | v
        · simp only [List.foldl_cons, streamToolStep, hp, if_neg hn, hcall]
          rw [ih]
          simp only [List.nil_append]
          rw [ih ([Event.toolCalling n (normArgs p.args), Event.toolErr n m])]
          simp [List.append_assoc]
        · simp only [List.foldl_cons, streamToolStep, hp, if_neg hn, hcall]
          rw [ih]
          simp only [List.nil_append]
          rw [ih ([Event.toolCalling n (normArgs p.args), Event.toolResult n v])]
          simp [List.append_assoc]

/-- The three event kinds the tool loop emits. -/
def toolish (e : Event) : Prop :=
  (∃ n a, e = Event.toolCalling n a) ∨ (∃ n v, e = Event.toolResult n v) ∨
    (∃ n m, e = Event.toolErr n m)

theorem streamToolStep_toolish (tools : List Tool) (plans : List Plan) :
    ∀ r e, e ∈ (List.foldl (streamToolStep tools) ([], r) plans).1 → toolish e := by
  induction plans with
  | nil => intro r e he; simp at he
  | cons p rest ih =>
    intro r e he
    match hp : p.tool with
    | none =>
      simp only [List.foldl_cons, streamToolStep, hp] at he
      exact ih r e he
    | some n =>
      by_cases hn : n.isEmpty
      · simp only [List.foldl_cons, streamToolStep, hp, if_pos hn] at he
        exact ih r e he
      · rcases hcall : callToolKw tools n (normArgs p.args) with m | v
        · simp only [List.foldl_cons, streamToolStep, hp, if_neg hn, hcall] at he
          rw [streamToolStep_decomp] at he
          simp only [List.nil_append, List.mem_append] at he
          rcases he with he | he'
          · simp only [List.mem_cons, List.not_mem_nil, or_false] at he
            rcases he with rfl | rfl
            · exact Or.inl ⟨n, _, rfl⟩
            · exact Or.inr (Or.inr ⟨n, m, rfl⟩)
          · exact ih _ e he'
        · simp only [List.foldl_cons, streamToolStep, hp, if_neg hn, hcall] at he
          rw [streamToolStep_decomp] at he
          simp only [List.nil_append, List.mem_append] at he
          rcases he with he | he'
          · simp only [List.mem_cons, List.not_mem_nil, or_false] at he
            rcases he with rfl | rfl
            · exact Or.inl ⟨n, _, rfl⟩
            · exact Or.inr (Or.inl ⟨n, v, rfl⟩)
          · exact ih _ e he'

/-- Checks that an event list is a sequence of `tool_calling` events each
immediately followed by exactly one matching `tool_result` or `tool_error`. -/
def toolBlocks : List Event → Bool
  | [] => true
  | Event.toolCalling n _ :: Event.toolResult n2 _ :: rest =>
    (n == n2) && toolBlocks rest
  | Event.toolCalling n _ :: Event.toolErr n2 _ :: rest =>
    (n == n2) && toolBlocks rest
  | _ => false

theorem streamToolStep_blocks (tools : List Tool) (plans : List Plan) :
    ∀ r, toolBlocks (List.foldl (streamToolStep tools) ([], r) plans).1 = true := by
  induction plans with
  | nil => intro r; rfl
  | cons p rest ih =>
    intro r
    match hp : p.tool with
    | none =>
      simp only [List.foldl_cons, streamToolStep, hp]
      exact ih r
    | some n =>
      by_cases hn : n.isEmpty
      · simp only [List.foldl_cons, streamToolStep, hp, if_pos hn]
        exact ih r
      · rcases hcall : callToolKw tools n (normArgs p.args) with m | v
        · simp only [List.foldl_cons, streamToolStep, hp, if_neg hn, hcall]
          rw [streamToolStep_decomp]
          simp only [List.nil_append, List.cons_append, toolBlocks,
                     beq_self_eq_true, Bool.true_and]
          exact ih _
        · simp only [List.foldl_cons, streamToolStep, hp, if_neg hn, hcall]
          rw [streamToolStep_decomp]
          simp only [List.nil_append, List.cons_append, toolBlocks,
                     beq_self_eq_true, Bool.true_and]
          exact ih _

theorem toolish_not_done_err (e : Event) (h : toolish e) :
    e ≠ Event.done ∧ ∀ m2, e ≠ Event.err m2 := by
  rcases h with ⟨n, a, rfl⟩ | ⟨n, v, rfl⟩ | ⟨n, m, rfl⟩ <;>
    exact ⟨fun hh => (nomatch hh), fun m2 hh => (nomatch hh)⟩

/-- The event-trace property of the claim on `respond_streaming` in the
successful case: a `thinking` event, the `plan` event, tool blocks, a
`stream_start`, raw text chunks, then a terminal `done`. -/
def okShape (tr : List Event) : Prop :=
  ∃ pj tevs cs, toolBlocks tevs = true ∧ (∀ e ∈ cs, ∃ s, e = Event.chunk s) ∧
    tr = Event.thinking :: Event.plan pj ::
      (tevs ++ Event.streamStart :: (cs ++ [Event.done]))

/-- The event-trace property of the claim on `respond_streaming` in the
failure case: some prefix free of `done` and `error` events, closed by one
terminal `error` event. -/
def errShape (tr : List Event) : Prop :=
  ∃ pre m, (∀ e ∈ pre, e ≠ Event.done ∧ ∀ m2, e ≠ Event.err m2) ∧
    tr = pre ++ [Event.err m]

theorem streamRun_flushed_ne_empty (frags : List String) :
    ∀ tl buf x, x ∈ (streamRun tl buf frags).1 → x ≠ "" := by
  induction frags with
  | nil => intro tl buf x hx; simp [streamRun] at hx
  | cons c rest ih =>
    intro tl buf x hx
    by_cases hc : c.isEmpty
    · rw [streamRun, if_pos hc] at hx
      exact ih _ _ _ hx
    · rw [streamRun, if_neg hc] at hx
      by_cases hf : shouldFlush (buf ++ c) (tl.headD false)
      · rw [if_pos hf] at hx
        rcases List.mem_cons.mp hx with rfl | hx'
        · exact append_ne_empty_right _ _ (fun h => hc (by rw [h]; rfl))
        · exact ih _ _ _ hx'
      · rw [if_neg hf] at hx
        exact ih _ _ _ hx

/-- Shape test used to state which parsed values the legacy-compatibility
branch of `Agent.evaluate_prompt` applies to. -/
def jsonIsObj : Json → Bool
  | Json.obj _ => true
  | _ => false

/-! ### Claim theorems -/

/-- C4: for every finite sequence of input text fragments (including the
empty sequence) and every timing of the interval trigger, the chunks
`_stream_llm_tokens` flushes — including the final forced flush after input
exhaustion — concatenate byte-for-byte to the concatenation of all input
fragments, and no flushed chunk is ever the empty string. -/
theorem c4_stream_buffer_reconstruction (tl : List Bool) (frags : List String) :
    concatAll (streamFlushAll tl frags) = concatAll frags ∧
    ∀ x ∈ streamFlushAll tl frags, x ≠ "" := by
  constructor
  · rw [streamFlushAll]
    by_cases h2 : (streamRun tl "" frags).2.isEmpty
    · have h2' : (streamRun tl "" frags).2 = "" :=
        (String.isEmpty_iff _).mp h2
      rw [if_pos h2, List.append_nil]
      have h := streamRun_concat frags tl ""
      rw [h2', String.append_empty, String.empty_append] at h
      exact h
    · rw [if_neg h2, concatAll_append]
      have h := streamRun_concat frags tl ""
      rw [String.empty_append] at h
      rw [show concatAll [(streamRun tl "" frags).2] = (streamRun tl "" frags).2
            from by rw [concatAll, concatAll, String.append_empty]]
      exact h
  · intro x hx
    rw [streamFlushAll] at hx
    rcases List.mem_append.mp hx with hx1 | hx2
    · exact streamRun_flushed_ne_empty frags tl "" x hx1
    · by_cases h2 : (streamRun tl "" frags).2.isEmpty
      · rw [if_pos h2] at hx2
        simp at hx2
      · rw [if_neg h2] at hx2
        rcases List.mem_singleton.mp hx2 with rfl
        exact fun he => h2 (by rw [he]; rfl)

/-- C2: for every plan sequence, the `Agent.respond` loop invokes exactly
the tools named by plans with a truthy tool name, in list order and with
the normalized args (`pick`); the resulting `tool_results` dict has
pairwise-distinct keys, its keys are exactly the invoked tool names, and
each key maps to the result of the last invocation bearing that name (last
write wins). -/
theorem c2_respond_invocations_and_results (tools : List Tool) (plans : List Plan) :
    (respondLoop tools plans).1 = plans.filterMap pick ∧
    (((respondLoop tools plans).2).map Prod.fst).Nodup ∧
    (∀ n, n ∈ ((respondLoop tools plans).2).map Prod.fst ↔
      n ∈ (plans.filterMap pick).map Prod.fst) ∧
    (∀ n, dlookup (respondLoop tools plans).2 n =
      ((plans.filterMap pick).reverse.find? (fun c => c.1 == n)).map
        (fun c => execResult tools c.1 c.2)) := by
  have h := respond_foldl_eq tools plans [] []
  rw [List.nil_append] at h
  refine ⟨?_, ?_, ?_, ?_⟩
  · rw [respondLoop, h]
  · rw [respondLoop, h]
    exact nodup_keys_foldl_insCall tools _ [] (by simp)
  · intro n
    rw [respondLoop, h]
    rw [mem_keys_foldl_insCall]
    simp
  · intro n
    rw [respondLoop, h, dlookup_foldl_insCall]
    rw [show dlookup ([] : List (String × Json)) n = none from rfl]
    exact Option.or_none

/-- C3: if the tool call of one plan fails (a raised `execute` or the
unregistered-tool `ValueError`), the `Agent.respond` loop records the
`\x7b"error": message\x7d` entry under that tool's name and then processes the
remaining plans exactly as it would from that state: nothing is skipped,
reordered, or aborted. -/
theorem c3_tool_failure_isolated (tools : List Tool) (pre post : List Plan)
    (n : String) (a : Json) (m : String) (hn : ¬n.isEmpty = true)
    (hfail : callToolKw tools n (normArgs a) = Except.error m) :
    List.foldl (respondStep tools) ([], []) (pre ++ (⟨some n, a⟩ : Plan) :: post)
      = List.foldl (respondStep tools)
          ((List.foldl (respondStep tools) ([], []) pre).1 ++ [(n, normArgs a)],
           dinsert (List.foldl (respondStep tools) ([], []) pre).2 n (errEntry m))
          post := by
  rw [List.foldl_append, List.foldl_cons]
  have hstep : respondStep tools (List.foldl (respondStep tools) ([], []) pre)
      (⟨some n, a⟩ : Plan)
      = ((List.foldl (respondStep tools) ([], []) pre).1 ++ [(n, normArgs a)],
         dinsert (List.foldl (respondStep tools) ([], []) pre).2 n (errEntry m)) := by
    simp only [respondStep, if_neg hn, execResult, hfail]
  rw [hstep]

/-- C3 witness: with no tools registered, a failing (unregistered) middle
plan contributes exactly its error entry and the loop goes on. -/
theorem c3_tool_failure_isolated_witness :
    List.foldl (respondStep ([] : List Tool)) ([], [])
        ([(⟨none, Json.null⟩ : Plan)] ++ (⟨some "WebSearchTool", Json.null⟩ : Plan) :: [])
      = List.foldl (respondStep ([] : List Tool))
          ((List.foldl (respondStep ([] : List Tool)) ([], []) [(⟨none, Json.null⟩ : Plan)]).1
             ++ [("WebSearchTool", normArgs Json.null)],
           dinsert (List.foldl (respondStep ([] : List Tool)) ([], [])
               [(⟨none, Json.null⟩ : Plan)]).2
             "WebSearchTool" (errEntry (notRegisteredMsg "WebSearchTool")))
          [] :=
  c3_tool_failure_isolated [] [⟨none, Json.null⟩] [] "WebSearchTool" Json.null
    (notRegisteredMsg "WebSearchTool") (by decide) rfl

/-- C10: a plan whose `"args"` value is missing, null, or otherwise falsy is
normalized to the empty mapping, and both the `respond` loop and the
`respond_streaming` loop invoke the named tool with no keyword arguments
rather than failing or passing the falsy value through. -/
theorem c10_falsy_args_normalized (tools : List Tool)
    (s : List (String × Json) × List (String × Json))
    (es : List Event × List (String × Json)) (n : String) (a : Json)
    (hn : ¬n.isEmpty = true) (ha : pyTruthy a = false) :
    normArgs a = Json.obj [] ∧
    respondStep tools s (⟨some n, a⟩ : Plan)
      = (s.1 ++ [(n, Json.obj [])], dinsert s.2 n (execResult tools n (Json.obj []))) ∧
    streamToolStep tools es (⟨some n, a⟩ : Plan)
      = streamToolStep tools es (⟨some n, Json.obj []⟩ : Plan) := by
  have hna : normArgs a = Json.obj [] := by rw [normArgs, ha]; rfl
  refine ⟨hna, ?_, ?_⟩
  · simp only [respondStep, if_neg hn, hna]
  · simp only [streamToolStep, if_neg hn, hna]
    rw [show normArgs (Json.obj []) = Json.obj [] from rfl]

/-- C10 witness: a null `args` value leads to a call with the empty kwargs
mapping in both loops. -/
theorem c10_falsy_args_normalized_witness :
    normArgs Json.null = Json.obj [] ∧
    respondStep ([] : List Tool) ([], []) (⟨some "FinanceTool", Json.null⟩ : Plan)
      = ([("FinanceTool", Json.obj [])],
         dinsert [] "FinanceTool" (execResult [] "FinanceTool" (Json.obj []))) ∧
    streamToolStep ([] : List Tool) ([], []) (⟨some "FinanceTool", Json.null⟩ : Plan)
      = streamToolStep ([] : List Tool) ([], []) (⟨some "FinanceTool", Json.obj []⟩ : Plan) :=
  c10_falsy_args_normalized [] ([], []) ([], []) "FinanceTool" Json.null
    (by decide) rfl

/-- C9 counterexample: a provider chunk whose `delta.content` is null makes
`generate_and_stream` yield the empty string, so not every yielded fragment
is a non-empty piece of generated text. -/
theorem c9_counterexample : "" ∈ generate_and_stream [Option.none] := by
  simp [generate_and_stream]

/-- C9 amended: the fragments `generate_and_stream` yields are all non-empty
exactly when every upstream chunk's `delta.content` is present and
non-empty; a null or empty content is yielded as the empty string (which
the downstream buffer then skips). -/
theorem c9_fragments_nonempty_iff (chunks : List (Option String)) :
    (∀ s ∈ generate_and_stream chunks, s ≠ "") ↔
    (∀ o ∈ chunks, ∃ s, o = some s ∧ s ≠ "") := by
  constructor
  · intro h o ho
    match o with
    | none =>
      exact absurd rfl (h "" (by
        rw [generate_and_stream]
        exact List.mem_map_of_mem _ ho))
    | some s =>
      rcases hs : s.isEmpty with _ | _
      · refine ⟨s, rfl, fun he => ?_⟩
        rw [he] at hs
        exact Bool.false_ne_true hs.symm
      · exact absurd rfl (h "" (by
          rw [generate_and_stream]
          refine List.mem_map.mpr ⟨some s, ho, ?_⟩
          simp [hs]))
  · intro h x hx
    rw [generate_and_stream] at hx
    obtain ⟨o, ho, rfl⟩ := List.mem_map.mp hx
    obtain ⟨s, rfl, hs⟩ := h o ho
    have hse : s.isEmpty = false := by
      rcases hb : s.isEmpty with _ | _
      · rfl
      · exact absurd ((String.isEmpty_iff s).mp hb) hs
    simpa [hse] using hs

/-- C1 counterexample: the output `\x7b"plans": 5\x7d` is valid JSON of neither
accepted shape, yet `evaluate_prompt` returns the number `5` — not the
sentinel plan list the claim requires for any other shape. -/
theorem c1_counterexample :
    planParse (some (Json.obj [("plans", Json.num 5)])) = Json.num 5 ∧
    Json.num 5 ≠ Json.arr [sentinelPlan] :=
  ⟨rfl, fun h => (nomatch h)⟩

/-- C1 amended: `evaluate_prompt` never raises (it is a total function of
the parse result) and behaves as follows: a parse failure yields the
sentinel plan list; a parsed object containing the key `"plans"` returns
that key's value as-is — in particular the plans list unmodified when it is
a list, but also any non-list value; a parsed object without `"plans"` is
wrapped as a one-element plan list; any parsed non-object yields the
sentinel plan list. -/
theorem c1_plan_parse_amended (fs : List (String × Json)) (v j : Json) :
    planParse none = Json.arr [sentinelPlan] ∧
    (dlookup fs "plans" = some v → planParse (some (Json.obj fs)) = v) ∧
    (dlookup fs "plans" = none → planParse (some (Json.obj fs)) = Json.arr [Json.obj fs]) ∧
    (jsonIsObj j = false → planParse (some j) = Json.arr [sentinelPlan]) := by
  refine ⟨rfl, ?_, ?_, ?_⟩
  · intro h
    simp [planParse, evaluatePlanBody, h]
  · intro h
    simp [planParse, evaluatePlanBody, h]
  · intro h
    cases j <;> simp [planParse, evaluatePlanBody] <;> simp [jsonIsObj] at h

/-- C1 amended witness: a well-formed plans list is passed through, and a
bare string output falls back to the sentinel. -/
theorem c1_plan_parse_amended_witness :
    planParse (some (Json.obj [("plans", Json.arr [])])) = Json.arr [] ∧
    planParse (some (Json.str "x")) = Json.arr [sentinelPlan] :=
  ⟨(c1_plan_parse_amended [("plans", Json.arr [])] (Json.arr []) (Json.str "x")).2.1 rfl,
   (c1_plan_parse_amended [("plans", Json.arr [])] (Json.arr []) (Json.str "x")).2.2.2 rfl⟩

/-- C5: the events `respond_streaming` emits on the channel are, in order:
one `thinking` event, one `plan` event, then per named plan a
`tool_calling` event immediately followed by exactly one matching
`tool_result` or `tool_error`, then one `stream_start`, then zero or more
text chunks and one terminal `done`; on any unhandled failure the sequence
instead ends with a single terminal `error` event, with no `done` and no
earlier `error` before it. -/
theorem c5_streaming_event_order (gen : GenOracle) (sgen : StreamOracle)
    (loads : String → Option Json) (tools : List Tool) (user_input : String)
    (tl : List Bool) :
    okShape (respondStreamingRun gen sgen loads tools user_input tl).1 ∨
    errShape (respondStreamingRun gen sgen loads tools user_input tl).1 := by
  rcases hg : gen (decisionPromptOf tools user_input) planTemp with m | out
  · right
    refine ⟨[Event.thinking], m, ?_, ?_⟩
    · intro e he
      rcases List.mem_singleton.mp he with rfl
      exact ⟨fun h => (nomatch h), fun m2 h => (nomatch h)⟩
    · simp only [respondStreamingRun, hg]
      rfl
  · rcases hp : toPlans (planParse (loads out)) with _ | plans
    · right
      refine ⟨[Event.thinking, Event.plan (planParse (loads out))], planShapeErrMsg, ?_, ?_⟩
      · intro e he
        rcases List.mem_cons.mp he with rfl | he2
        · exact ⟨fun h => (nomatch h), fun m2 h => (nomatch h)⟩
        · rcases List.mem_singleton.mp he2 with rfl
          exact ⟨fun h => (nomatch h), fun m2 h => (nomatch h)⟩
      · simp only [respondStreamingRun, hg, hp]
        rfl
    · rcases hsr : sgen (get_response_prompt user_input
          (dumps (Json.obj (List.foldl (streamToolStep tools) ([], []) plans).2)))
          synthTemp with ⟨frags, serr⟩
      cases serr with
      | none =>
        left
        refine ⟨planParse (loads out),
                (List.foldl (streamToolStep tools) ([], []) plans).1,
                (streamFlushAll tl frags).map Event.chunk,
                streamToolStep_blocks tools plans [], ?_, ?_⟩
        · intro e he
          obtain ⟨s, _, rfl⟩ := List.mem_map.mp he
          exact ⟨s, rfl⟩
        · simp only [respondStreamingRun, hg, hp, hsr]
      | some m =>
        right
        refine ⟨Event.thinking :: Event.plan (planParse (loads out)) ::
                  ((List.foldl (streamToolStep tools) ([], []) plans).1 ++
                    Event.streamStart :: (streamRun tl "" frags).1.map Event.chunk),
                m, ?_, ?_⟩
        · intro e he
          rcases List.mem_cons.mp he with rfl | he2
          · exact ⟨fun h => (nomatch h), fun m2 h => (nomatch h)⟩
          rcases List.mem_cons.mp he2 with rfl | he3
          · exact ⟨fun h => (nomatch h), fun m2 h => (nomatch h)⟩
          rcases List.mem_append.mp he3 with he4 | he5
          · exact toolish_not_done_err e (streamToolStep_toolish tools plans [] e he4)
          rcases List.mem_cons.mp he5 with rfl | he6
          · exact ⟨fun h => (nomatch h), fun m2 h => (nomatch h)⟩
          obtain ⟨s, _, rfl⟩ := List.mem_map.mp he6
          exact ⟨fun h => (nomatch h), fun m2 h => (nomatch h)⟩
        · simp only [respondStreamingRun, hg, hp, hsr]
          simp [List.append_assoc, List.cons_append]

/-! ### Concrete collaborators used by witnesses and counterexamples -/

/-- Provider stub returning a fixed completion for every prompt. -/
def genOk : GenOracle := fun _ _ => Except.ok "out!"

/-- Provider stub that raises exactly at the planning temperature, so the
planning `complete` call fails while a synthesis call would succeed. -/
def genPlanFail : GenOracle := fun _ t =>
  if t = planTemp then Except.error "boom" else Except.ok "x"

/-- Parse stub for a run whose tool-decision output is not JSON: the parse
raises, so `evaluate_prompt` falls back to the sentinel plan. -/
def loadsFail : String → Option Json := fun _ => none

/-- Parse stub for a run whose tool-decision output is
`{"plans": [{"tool": "FinanceTool", "args": {}}]}`. -/
def loadsOnePlan : String → Option Json := fun _ =>
  some (Json.obj [("plans", Json.arr
    [Json.obj [("tool", Json.str "FinanceTool"), ("args", Json.obj [])]])])

/-- Streaming stub delivering no fragments and finishing cleanly. -/
def sgenEmpty : StreamOracle := fun _ _ => ([], none)

/-- C6 counterexample: in a `respond_streaming` run whose tool-results map
is empty, the synthesis prompt embeds the serialized empty map `{}` and
not the fixed "No tool results available." marker the claim requires. -/
theorem c6_counterexample :
    (respondStreamingRun genOk sgenEmpty loadsFail [] "hi" []).2
      = [⟨decisionPromptOf [] "hi", planTemp, false⟩,
         ⟨get_response_prompt "hi" "\x7b\x7d", synthTemp, true⟩] ∧
    get_response_prompt "hi" "\x7b\x7d" ≠ get_response_prompt "hi" noResultsMarker := by
  constructor
  · have h1 : (respondStreamingRun genOk sgenEmpty loadsFail [] "hi" []).2
        = [⟨decisionPromptOf [] "hi", planTemp, false⟩,
           ⟨get_response_prompt "hi" (dumps (Json.obj [])), synthTemp, true⟩] := rfl
    rw [h1, show dumps (Json.obj []) = "\x7b\x7d" from by simp [dumps, dumpsAt]]
  · decide

/-- C6 amended: whenever the planning `complete` call succeeds and its
parsed plan value is iterable as a plan list, `respond` and
`respond_streaming` each make the synthesis generation call exactly once —
even when every planned tool failed or no tools were planned.  `respond`
builds its synthesis prompt through `synthesize_response`, which substitutes
the "No tool results available." marker when the results map is empty;
`respond_streaming` always serializes the map with `json.dumps`, so an
empty map contributes `{}` instead of the marker. -/
theorem c6_synthesis_once_marker_divergence (gen : GenOracle) (sgen : StreamOracle)
    (loads : String → Option Json) (tools : List Tool) (user_input : String)
    (tl : List Bool) (out : String) (plans : List Plan)
    (hg : gen (decisionPromptOf tools user_input) planTemp = Except.ok out)
    (hp : toPlans (planParse (loads out)) = some plans) :
    (respondWithLog gen loads tools user_input).1
      = [⟨decisionPromptOf tools user_input, planTemp, false⟩,
         ⟨synthesisPrompt user_input (respondLoop tools plans).2, synthTemp, false⟩] ∧
    (respondStreamingRun gen sgen loads tools user_input tl).2
      = [⟨decisionPromptOf tools user_input, planTemp, false⟩,
         ⟨get_response_prompt user_input
            (dumps (Json.obj (List.foldl (streamToolStep tools) ([], []) plans).2)),
          synthTemp, true⟩] ∧
    synthesisPrompt user_input [] = get_response_prompt user_input noResultsMarker := by
  refine ⟨?_, ?_, rfl⟩
  · simp only [respondWithLog, hg, hp]
  · simp only [respondStreamingRun, hg, hp]

/-- C6 amended witness: a run with unparsable tool-decision output makes
exactly one planning call and one synthesis call in both paths. -/
theorem c6_synthesis_once_witness :
    (respondWithLog genOk loadsFail [] "hi").1
      = [⟨decisionPromptOf [] "hi", planTemp, false⟩,
         ⟨synthesisPrompt "hi" (respondLoop [] [(⟨none, Json.obj []⟩ : Plan)]).2,
          synthTemp, false⟩] ∧
    (respondStreamingRun genOk sgenEmpty loadsFail [] "hi" []).2
      = [⟨decisionPromptOf [] "hi", planTemp, false⟩,
         ⟨get_response_prompt "hi"
            (dumps (Json.obj
              (List.foldl (streamToolStep ([] : List Tool)) ([], [])
                [(⟨none, Json.obj []⟩ : Plan)]).2)),
          synthTemp, true⟩] ∧
    synthesisPrompt "hi" [] = get_response_prompt "hi" noResultsMarker :=
  c6_synthesis_once_marker_divergence genOk sgenEmpty loadsFail [] "hi" []
    "out!" [⟨none, Json.obj []⟩] rfl rfl

/-- Every dict `Agent.respond` returns has exactly the keys
`final_response`, `tool_plans` and `tool_results`. -/
theorem respond_ok_shape (gen : GenOracle) (loads : String → Option Json)
    (tools : List Tool) (user_input : String) (d : Json)
    (h : respond gen loads tools user_input = Except.ok d) :
    ∃ fr pj res, d = Json.obj
      [("final_response", Json.str fr), ("tool_plans", pj),
       ("tool_results", Json.obj res)] := by
  rcases hg : gen (decisionPromptOf tools user_input) planTemp with m | out
  · simp only [respond, respondWithLog, hg] at h
    exact (nomatch h)
  · rcases hp : toPlans (planParse (loads out)) with _ | plans
    · simp only [respond, respondWithLog, hg, hp] at h
      exact (nomatch h)
    · rcases hf : gen (synthesisPrompt user_input (respondLoop tools plans).2)
          synthTemp with m | fr
      · simp only [respond, respondWithLog, hg, hp, hf] at h
        exact (nomatch h)
      · simp only [respond, respondWithLog, hg, hp, hf] at h
        cases h
        exact ⟨fr, planParse (loads out), (respondLoop tools plans).2, rfl⟩

/-- C7: on every successful synchronous request the `toolPlan` field of the
`/query` response is null — `respond` returns the plan under the key
`tool_plans` while the endpoint reads `tool_plan`, so the computed plan
list never reaches the caller. -/
theorem c7_tool_plan_always_null (gen : GenOracle) (loads : String → Option Json)
    (tools : List Tool) (prompt : String) (r : AgentResponseM)
    (h : query_endpoint gen loads tools prompt = Except.ok r) :
    r.tool_plan = none := by
  rcases hres : respond gen loads tools prompt with e | d
  · simp only [query_endpoint, hres] at h
    exact (nomatch h)
  · obtain ⟨fr, pj, res, rfl⟩ := respond_ok_shape gen loads tools prompt d hres
    simp only [query_endpoint, hres] at h
    cases h
    rfl

/-- Concrete `/query` response of the C7 witness run: the plan named
`FinanceTool`, yet `tool_plan` is null. -/
def qr7 : AgentResponseM :=
  { original_prompt := "hi"
    final_response := "out!"
    tool_plan := none
    tool_results := some (Json.obj
      [("FinanceTool", errEntry (notRegisteredMsg "FinanceTool"))]) }

/-- C7 witness: a successful request whose plan names `FinanceTool` still
carries a null `tool_plan`. -/
theorem c7_tool_plan_always_null_witness :
    query_endpoint genOk loadsOnePlan [] "hi" = Except.ok qr7 ∧
    qr7.tool_plan = none :=
  ⟨rfl, c7_tool_plan_always_null genOk loadsOnePlan [] "hi" qr7 rfl⟩

/-- C8 counterexample: a provider failure of the planning `complete` call —
`genPlanFail` raises only at the planning temperature — is propagated by
`respond` and surfaced by `/query` as a request-level failure, which the
claim says never happens for the planning step. -/
theorem c8_counterexample :
    query_endpoint genPlanFail loadsFail [] "hi" = Except.error "boom" := by
  simp [query_endpoint, respond, respondWithLog, genPlanFail]

/-- C8 amended: a synchronous request fails exactly when the provider's
`complete` call fails during the planning step or during the synthesis
step, or when the parsed plan value cannot be iterated as a list of plan
dicts; tool failures and JSON plan-parse failures are absorbed and never
surfaced. -/
theorem c8_sync_failure_characterization (gen : GenOracle)
    (loads : String → Option Json) (tools : List Tool) (prompt : String) :
    (∃ e, query_endpoint gen loads tools prompt = Except.error e) ↔
    ((∃ m, gen (decisionPromptOf tools prompt) planTemp = Except.error m) ∨
     (∃ out, gen (decisionPromptOf tools prompt) planTemp = Except.ok out ∧
        toPlans (planParse (loads out)) = none) ∨
     (∃ out plans m, gen (decisionPromptOf tools prompt) planTemp = Except.ok out ∧
        toPlans (planParse (loads out)) = some plans ∧
        gen (synthesisPrompt prompt (respondLoop tools plans).2) synthTemp
          = Except.error m)) := by
  rcases hg : gen (decisionPromptOf tools prompt) planTemp with m | out
  · constructor
    · intro _
      exact Or.inl ⟨m, rfl⟩
    · intro _
      exact ⟨m, by simp only [query_endpoint, respond, respondWithLog, hg]⟩
  · rcases hp : toPlans (planParse (loads out)) with _ | plans
    · constructor
      · intro _
        exact Or.inr (Or.inl ⟨out, rfl, hp⟩)
      · intro _
        exact ⟨planShapeErrMsg,
          by simp only [query_endpoint, respond, respondWithLog, hg, hp]⟩
    · rcases hf : gen (synthesisPrompt prompt (respondLoop tools plans).2)
          synthTemp with m | fr
      · constructor
        · intro _
          exact Or.inr (Or.inr ⟨out, plans, m, rfl, hp, hf⟩)
        · intro _
          exact ⟨m, by simp only [query_endpoint, respond, respondWithLog, hg, hp, hf]⟩
      · constructor
        · rintro ⟨e, he⟩
          simp only [query_endpoint, respond, respondWithLog, hg, hp, hf] at he
          exact (nomatch he)
        · rintro (⟨m, hm⟩ | ⟨o, ho, hpo⟩ | ⟨o, ps, m, ho, hpo, hfo⟩)
          · exact (nomatch hm)
          · cases ho
            rw [hp] at hpo
            exact (nomatch hpo)
          · cases ho
            rw [hp] at hpo
            cases hpo
            rw [hf] at hfo
            exact (nomatch hfo)

end LLMAgent
